import Mathlib

/-!
# Shallow embedding of `kayak_core::widget_manager` (NoahShomette/kayak_ui)

This file embeds the `WidgetManager` from `src/kayak_core/src/widget_manager.rs`
and proves the specification claims about it.

Modelling conventions:
* `Index` (the arena handle, `generational_arena`-style) is modelled as `Nat`.
  Slots are never removed in the observed code, so the generation component is
  constantly zero and omitted.
* `f32` z-values are modelled as `Rat`; the arithmetic performed by the code
  (`+ 1.0`, `± 0.1`, comparison with `-1.0`) is exact at this scale.
* `HashMap`/`IndexMap` maps are modelled as association lists with
  first-match lookup; `insert` conses, which has the same lookup semantics.
* Fallible operations (`unwrap`, arena indexing that can panic) return
  `Option`: `none` models a panic.
* Recursive tree walks (`get_valid_parent`, `get_valid_node_children`,
  `recurse_node_tree_to_build_primitives`) take an explicit fuel parameter,
  since the Rust recursion has no termination guarantee on arbitrary maps.
* Types that live outside `src/` (`Style`, `StyleProp`, `RenderCommand`,
  `RenderPrimitive`, `Tree`, `FocusTree`, `FocusTracker`, `Arena`, assets)
  are modelled from the spec; each carries a doc comment saying so.
-/

namespace Kayak

/-- Arena handle. Modelled from the spec: `Index` is an opaque stable handle
(slot + generation); generations are constantly zero here because slots are
never removed, so a bare `Nat` slot number suffices. -/
abbrev Index := Nat

/-- Modelled from the spec: `StyleProp<T>`, the tri-state style value
(unset/"default", inherit-from-parent, or explicit value). -/
inductive StyleProp (α : Type) : Type where
  | Default : StyleProp α
  | Inherit : StyleProp α
  | Value : α → StyleProp α
deriving DecidableEq, Repr

/-- Modelled from the spec: `StyleProp::resolve` yields the explicit value, or
the property's fixed baseline default when unset/inherit is unresolved. -/
def StyleProp.resolve {α : Type} (d : α) : StyleProp α → α
  | .Value v => v
  | _ => d

/-- Modelled from the spec: `RenderCommand`, the visual kind of a widget
(`Empty`, clip region, quad/shape, text run). -/
inductive RenderCommand : Type where
  | Empty : RenderCommand
  | Clip : RenderCommand
  | Quad : RenderCommand
  | Text : String → RenderCommand
deriving DecidableEq, Repr

/-- `render_command.resolve()`: the baseline default visual kind is `Empty`
(an undeclared widget draws nothing). -/
def resolveRC : StyleProp RenderCommand → RenderCommand :=
  StyleProp.resolve .Empty

/-- Modelled from the spec: layout units (`morphorm::Units`); only pixels and
auto are relevant to the claims. -/
inductive Units : Type where
  | Auto : Units
  | Pixels : Rat → Units
deriving DecidableEq, Repr

/-- Modelled from the spec: `Style`, restricted to the properties the claims
depend on (visual kind, width, height, font reference, font size, line
height). -/
structure Style : Type where
  render_command : StyleProp RenderCommand
  width : StyleProp Units
  height : StyleProp Units
  font : StyleProp String
  font_size : StyleProp Rat
  line_height : StyleProp Rat
deriving DecidableEq, Repr

/-- Modelled from the spec: `Style::default()` — every property unset. -/
def Style.mkDefault : Style :=
  ⟨.Default, .Default, .Default, .Default, .Default, .Default⟩

/-- Modelled from the spec: `Style::new_default()` used for the missing-parent
fallback; all properties unset. -/
def Style.newDefault : Style := Style.mkDefault

/-- Fill one unset property from another style (used by `Style::apply`). -/
def StyleProp.applyFrom {α : Type} : StyleProp α → StyleProp α → StyleProp α
  | .Default, o => o
  | s, _ => s

/-- Overwrite one inherit-marked property with the parent's value (used by
`Style::inherit`). -/
def StyleProp.inheritFrom {α : Type} : StyleProp α → StyleProp α → StyleProp α
  | .Inherit, o => o
  | s, _ => s

/-- Modelled from the spec: `Style::apply` fills every unset property from the
argument (`styles.apply(&initial_styles)` fills in initial values). -/
def Style.apply (s o : Style) : Style :=
  ⟨s.render_command.applyFrom o.render_command, s.width.applyFrom o.width,
   s.height.applyFrom o.height, s.font.applyFrom o.font,
   s.font_size.applyFrom o.font_size, s.line_height.applyFrom o.line_height⟩

/-- Modelled from the spec: `Style::inherit` overwrites every inherit-marked
property with the parent style's value. -/
def Style.inheritStyle (s o : Style) : Style :=
  ⟨s.render_command.inheritFrom o.render_command, s.width.inheritFrom o.width,
   s.height.inheritFrom o.height, s.font.inheritFrom o.font,
   s.font_size.inheritFrom o.font_size, s.line_height.inheritFrom o.line_height⟩

/-- Modelled from the spec: `Style::initial()`, the initial-value baseline.
Size properties stay unset (auto), the visual kind baseline is `Empty`. -/
def Style.initialStyle : Style :=
  ⟨.Value .Empty, .Default, .Default, .Value "", .Value 14, .Value 16⟩

/-- Layout rectangle (`layout_cache::Rect`): position, size and stamped
z-index. -/
structure Rect : Type where
  posx : Rat
  posy : Rat
  width : Rat
  height : Rat
  z_index : Rat
deriving DecidableEq, Repr

/-- `Rect::default()`: all zero. -/
def Rect.zero : Rect := ⟨0, 0, 0, 0, 0⟩

/-- Modelled from the spec: `RenderPrimitive` — tagged drawable unit. Text
carries content, font reference, size, line height and the parent box used
for measurement. -/
inductive RenderPrimitive : Type where
  | Empty : RenderPrimitive
  | Clip : Rect → RenderPrimitive
  | Quad : Rect → RenderPrimitive
  | Text : Rect → Rat × Rat → String → String → Rat → Rat → RenderPrimitive
deriving DecidableEq, Repr

/-- `matches!(p, RenderPrimitive::Clip { .. })`. -/
def RenderPrimitive.isClip : RenderPrimitive → Bool
  | .Clip _ => true
  | _ => false

/-- Modelled from the spec: `RenderPrimitive::set_layout` stamps the layout
rect onto the primitive (no-op for `Empty`). -/
def RenderPrimitive.setLayout : RenderPrimitive → Rect → RenderPrimitive
  | .Empty, _ => .Empty
  | .Clip _, l => .Clip l
  | .Quad _, l => .Quad l
  | .Text _ ps c f s lh, l => .Text l ps c f s lh

/-- The in-place z mutation `layout.z_index = ...` performed on the carried
clip primitive in the sequencer's reset step. -/
def RenderPrimitive.setClipZ : RenderPrimitive → Rat → RenderPrimitive
  | .Clip l, z => .Clip { l with z_index := z }
  | p, _ => p

/-- Modelled from the spec: `impl From<&Style> for RenderPrimitive` — the
primitive kind follows the resolved render command; text pulls content, font
reference, size and line height from the style. -/
def RenderPrimitive.fromStyle (s : Style) : RenderPrimitive :=
  match resolveRC s.render_command with
  | .Empty => .Empty
  | .Clip => .Clip Rect.zero
  | .Quad => .Quad Rect.zero
  | .Text content =>
      .Text Rect.zero (0, 0) content (s.font.resolve "") (s.font_size.resolve 14)
        (s.line_height.resolve 16)

/-- Modelled from the spec: a loaded font asset; `measure(content, size,
line-height, available-box) -> (width, height)` in pixels. -/
structure KayakFont : Type where
  measure : String → Rat → Rat → Rat × Rat → Rat × Rat

/-- Modelled from the spec: the asset store, polled by font reference. -/
def Assets : Type := String → Option KayakFont

/-- Modelled from the spec: a `BoxedWidget` restricted to the shared
capability set the manager uses: an id, declared styles, declared
focusability, and a display name. -/
structure Widget : Type where
  id : Index
  styles : Option Style
  focusable : Option Bool
  name : String
deriving DecidableEq, Repr

/-- `NodeRecord` (`node::Node`): resolved state stored per Identity. -/
structure Node : Type where
  id : Index
  resolved_styles : Style
  raw_styles : Option Style
  children : List Index
  primitive : RenderPrimitive
  z : Rat
deriving DecidableEq, Repr

/-- First-match association-list lookup (models `HashMap::get`). -/
def mapLookup {α : Type} (l : List (Index × α)) (k : Index) : Option α :=
  (l.find? fun p => p.1 == k).map (·.2)

/-- `tree::Tree`: root plus parent and children adjacency maps. -/
structure Tree : Type where
  root_node : Option Index := none
  parents : List (Index × Index) := []
  children : List (Index × List Index) := []
deriving DecidableEq, Repr

/-- Modelled from the spec: `Tree::add` — with a parent, record the parent
edge and append to the parent's children sequence; with no parent, set the
root. -/
def Tree.add (t : Tree) (id : Index) (parent : Option Index) : Tree :=
  match parent with
  | some p =>
      let cs := (mapLookup t.children p).getD []
      { t with parents := (id, p) :: t.parents,
               children := (p, cs ++ [id]) :: t.children }
  | none => { t with root_node := some id }

/-- Modelled from the spec: `Tree::is_empty` — true before the first
(structural root) insertion. -/
def Tree.isEmpty (t : Tree) : Bool := t.root_node.isNone

/-- Modelled from the spec: `FocusTree` restricted to what the claims need:
the set of contained identities and the current focus. -/
structure FocusTree : Type where
  nodes : List Index := []
  current : Option Index := none
deriving DecidableEq, Repr

/-- `FocusTree::clear`. -/
def FocusTree.clear : FocusTree := {}

/-- Modelled from the spec: `FocusTree::add` inserts an identity (placement
within the internal tree shape is irrelevant to containment and focus). -/
def FocusTree.add (ft : FocusTree) (id : Index) : FocusTree :=
  { ft with nodes := if id ∈ ft.nodes then ft.nodes else ft.nodes ++ [id] }

/-- `FocusTree::contains`. -/
def FocusTree.containsId (ft : FocusTree) (id : Index) : Bool := ft.nodes.contains id

/-- `FocusTree::focus`. -/
def FocusTree.focus (ft : FocusTree) (id : Index) : FocusTree :=
  { ft with current := some id }

/-- `IndexSet::insert`: append if absent (ordered, deduplicated). -/
def insertIdx (l : List Index) (i : Index) : List Index :=
  if i ∈ l then l else l ++ [i]

/-- The engine state (`WidgetManager`). `current_widgets` and `nodes` are the
arena slot lists (position = `Index`); `widget_lifetimes` records the binding
subscriptions keyed by widget and binding reference. -/
structure WidgetManager : Type where
  current_widgets : List (Option Widget) := []
  dirty_render_nodes : List Index := []
  dirty_nodes : List Index := []
  nodes : List (Option Node) := []
  widget_lifetimes : List (Index × String) := []
  tree : Tree := {}
  node_tree : Tree := {}
  focus_tree : FocusTree := {}
  layout_cache : List (Index × Rect) := []
  focus_tracker : List (Index × Bool) := []
  current_z : Rat := 0

/-- Modelled from the spec: `FocusTracker::set_focusability` stores the
declared eligibility when one is given. -/
def setFocusable (st : WidgetManager) (focusable : Option Bool) (id : Index)
    (_is_parent : Bool) : WidgetManager :=
  match focusable with
  | some b => { st with focus_tracker := (id, b) :: st.focus_tracker }
  | none => st

/-- `WidgetManager::get_focusable`. -/
def getFocusable (st : WidgetManager) (id : Index) : Option Bool :=
  mapLookup st.focus_tracker id

/-- The widget stored at an arena slot, if the slot exists and is occupied. -/
def widgetAt (st : WidgetManager) (id : Index) : Option Widget :=
  (st.current_widgets.get? id).bind (fun o => o)

/-- The widget-id probe at the top of `create_widget`: the entry at
`childIndex` of the parent's existing children sequence, if any. -/
def childAt (st : WidgetManager) (parent : Option Index) (index : Nat) : Option Index :=
  match parent with
  | some p =>
      match mapLookup st.tree.children p with
      | some parent_children => parent_children.get? index
      | none => none
  | none => none

/-- The in-place-update path of `create_widget` (lines 94-126), entered with
the state after the focus re-registration: overwrite the slot's
`WidgetInstance` (panic — `none` — if the slot is empty), mark render-dirty,
and return the preserved Identity. -/
def updateExisting (st1 : WidgetManager) (widget : Widget) (widget_id : Index) :
    Option (Bool × Index × WidgetManager) :=
  match st1.current_widgets.get? widget_id with
  | some (some _) =>
      some (true, widget_id,
        { st1 with
          current_widgets :=
            st1.current_widgets.set widget_id (some { widget with id := widget_id }),
          dirty_render_nodes := insertIdx st1.dirty_render_nodes widget_id })
  | _ => none

/-- The fresh-allocation path of `create_widget` (lines 128-157): insert the
widget and an empty node record, mark render-dirty, register the tree edge
and layout-cache placeholder, and set focusability. -/
def freshInsert (st : WidgetManager) (widget : Widget) (parent : Option Index) :
    Bool × Index × WidgetManager :=
  let focusable := if st.tree.isEmpty then some true else widget.focusable
  let widget_id := st.current_widgets.length
  let st1 := { st with
    current_widgets := st.current_widgets ++ [some { widget with id := widget_id }],
    nodes := st.nodes ++ [none] }
  let st2 := { st1 with dirty_render_nodes := insertIdx st1.dirty_render_nodes widget_id }
  let st3 := { st2 with tree := st2.tree.add widget_id parent }
  let st4 := { st3 with layout_cache := (widget_id, Rect.zero) :: st3.layout_cache }
  (true, widget_id, setFocusable st4 focusable widget_id true)

/-- `WidgetManager::create_widget`. Returns `none` where the Rust code would
panic (updating a slot whose `WidgetInstance` has been taken). -/
def createWidget (st : WidgetManager) (index : Nat) (widget : Widget)
    (parent : Option Index) : Option (Bool × Index × WidgetManager) :=
  match childAt st parent index with
  | some widget_id =>
      updateExisting
        (if st.tree.isEmpty then setFocusable st (some true) widget_id true
         else setFocusable st widget.focusable widget_id true)
        widget widget_id
  | none => some (freshInsert st widget parent)

/-- `WidgetManager::take`: removes and returns the stored `WidgetInstance`,
leaving the slot empty; `none` models the panic on an empty slot. -/
def take (st : WidgetManager) (id : Index) : Option (Widget × WidgetManager) :=
  match st.current_widgets.get? id with
  | some (some w) =>
      some (w, { st with current_widgets := st.current_widgets.set id none })
  | _ => none

/-- `WidgetManager::repossess`: restores a taken `WidgetInstance` to its
slot. -/
def repossess (st : WidgetManager) (widget : Widget) : WidgetManager :=
  { st with current_widgets := st.current_widgets.set widget.id (some widget) }

/-- `WidgetManager::get_layout`. -/
def getLayout (st : WidgetManager) (id : Index) : Option Rect :=
  mapLookup st.layout_cache id

/-- The recursion of `get_valid_parent`, parameterized by the two pieces of
state it reads (the full tree's parent map and the node arena), with explicit
fuel: walk ancestors upward, skipping any ancestor whose `NodeRecord` is
missing or resolves to `Empty`. -/
def getValidParentAux (parents : List (Index × Index)) (nodes : List (Option Node)) :
    Nat → Index → Option Index
  | 0, _ => none
  | fuel + 1, node_id =>
      match mapLookup parents node_id with
      | some parent_id =>
          match nodes.get? parent_id with
          | some (some parent_widget) =>
              if resolveRC parent_widget.resolved_styles.render_command ≠ .Empty then
                some parent_id
              else getValidParentAux parents nodes fuel parent_id
          | _ => getValidParentAux parents nodes fuel parent_id
      | none => none

/-- `WidgetManager::get_valid_parent`. -/
def getValidParent (st : WidgetManager) (fuel : Nat) (id : Index) : Option Index :=
  getValidParentAux st.tree.parents st.nodes fuel id

/-- A widget whose declared style resolves to a non-`Empty` visual kind (the
inclusion test of `get_valid_node_children` / `build_nodes_tree`). -/
def isRenderable (st : WidgetManager) (id : Index) : Bool :=
  match widgetAt st id with
  | some w =>
      match w.styles with
      | some s => resolveRC s.render_command != .Empty
      | none => false
  | none => false

/-- A present widget that is flattened out of the renderable tree (no styles,
or styles resolving to `Empty`). -/
def isWrapper (st : WidgetManager) (id : Index) : Bool :=
  (widgetAt st id).isSome && !(isRenderable st id)

/-- The flat-map step of the `get_valid_node_children` loop, kept as explicit
recursion to mirror the Rust `push`/`extend` loop. -/
def collectChildren (f : Index → List Index) : List Index → List Index
  | [] => []
  | c :: rest => f c ++ collectChildren f rest

/-- `WidgetManager::get_valid_node_children` with explicit recursion fuel:
a renderable child is included directly; a present non-renderable child is
flattened (its own valid children are spliced in its place); a missing
widget slot is skipped. -/
def getValidNodeChildren (st : WidgetManager) : Nat → Index → List Index
  | 0, _ => []
  | fuel + 1, node_id =>
      match mapLookup st.tree.children node_id with
      | some node_children =>
          collectChildren
            (fun child_id =>
              match widgetAt st child_id with
              | some child_widget =>
                  match child_widget.styles with
                  | some child_styles =>
                      if resolveRC child_styles.render_command != .Empty then [child_id]
                      else getValidNodeChildren st fuel child_id
                  | none => getValidNodeChildren st fuel child_id
              | none => [])
            node_children
      | none => []

/-- `WidgetManager::bind` restricted to its immediate effect: register the
binding in the widget's lifetime set (the callback only fires later, inserting
into the re-evaluation dirty set). -/
def bindFont (st : WidgetManager) (id : Index) (fontName : String) : WidgetManager :=
  { st with widget_lifetimes := (id, fontName) :: st.widget_lifetimes }

/-- The z-depth computation of the render pass (lines 208-228): returns the
z assigned to the node and the new value of the top-level counter. -/
def assignZ (st : WidgetManager) (id : Index) : Rat × Rat :=
  let parent_z : Rat :=
    match mapLookup st.tree.parents id with
    | some p =>
        match st.nodes.get? p with
        | some (some n) => n.z
        | _ => -1
    | none => -1
  if parent_z > -1 then (parent_z + 1, st.current_z)
  else (st.current_z, st.current_z + 1)

/-- The parent's `NodeRecord`, when the identity has a parent edge and that
parent's record exists. -/
def parentRecord (st : WidgetManager) (id : Index) : Option Node :=
  match mapLookup st.tree.parents id with
  | some p =>
      match st.nodes.get? p with
      | some (some n) => some n
      | _ => none
  | none => none

/-- The parent-styles source of the render pass (lines 191-206): resolved
ancestor record styles, else the ancestor's raw declared styles, else the
default baseline. -/
def parentStyles (st : WidgetManager) (id : Index) : Style :=
  match mapLookup st.tree.parents id with
  | some parent_widget_id =>
      match st.nodes.get? parent_widget_id with
      | some (some parent) => parent.resolved_styles
      | _ =>
          match widgetAt st parent_widget_id with
          | some parent =>
              match parent.styles with
              | some styles => styles
              | none => Style.newDefault
          | none => Style.newDefault
  | none => Style.newDefault

/-- The text branch of `create_primitive`, entered with the state after the
font binding: when the font is available and the valid parent has a known
layout rect, measure the content against the parent box and fill still-unset
width/height with the measured pixels; otherwise leave the cascaded style
unchanged. -/
def textMeasure (fuel : Nat) (st1 : WidgetManager) (id : Index) (styles : Style)
    (assets : Assets) (lay : Rect) (ps : Rat × Rat) (content fontName : String)
    (size line_height : Rat) : RenderPrimitive × Style × WidgetManager :=
  match assets fontName with
  | some font =>
      match getValidParent st1 fuel id with
      | some parent_id =>
          match getLayout st1 parent_id with
          | some parent_layout =>
              let parent_size := (parent_layout.width, parent_layout.height)
              let m := font.measure content size line_height parent_size
              let styles1 :=
                if styles.width = StyleProp.Default then
                  { styles with width := .Value (.Pixels m.1) }
                else styles
              let styles2 :=
                if styles.height = StyleProp.Default then
                  { styles1 with height := .Value (.Pixels m.2) }
                else styles1
              (.Text lay parent_size content fontName size line_height, styles2, st1)
          | none => (.Text lay ps content fontName size line_height, styles, st1)
      | none => (.Text lay ps content fontName size line_height, styles, st1)
  | none => (.Text lay ps content fontName size line_height, styles, st1)

/-- `WidgetManager::create_primitive`: build the primitive from the cascaded
style; for text, bind to the font asset and run the measurement branch. -/
def createPrimitive (fuel : Nat) (st : WidgetManager) (id : Index) (styles : Style)
    (assets : Assets) : RenderPrimitive × Style × WidgetManager :=
  match RenderPrimitive.fromStyle styles with
  | .Text lay ps content fontName size line_height =>
      textMeasure fuel (bindFont st id fontName) id styles assets lay ps content
        fontName size line_height
  | p => (p, styles, st)

/-- One iteration of the render pass's dirty-node loop (lines 185-255):
resolve the cascade, assign z, build the primitive, and store the new
`NodeRecord`. `none` models the `unwrap` panic on a taken widget slot. -/
def processNode (assets : Assets) (st : WidgetManager) (id : Index) :
    Option WidgetManager :=
  match widgetAt st id with
  | some dirty_widget =>
      let pstyles := parentStyles st id
      let z := assignZ st id
      let st1 := { st with current_z := z.2 }
      let raw_styles := dirty_widget.styles
      let styles0 := raw_styles.getD Style.mkDefault
      let styles1 := styles0.apply Style.initialStyle
      let styles2 := styles1.inheritStyle pstyles
      let r := createPrimitive st1.current_widgets.length st1 id styles2 assets
      let children := (mapLookup r.2.2.tree.children id).getD []
      let node : Node :=
        { id := id, resolved_styles := r.2.1, raw_styles := raw_styles,
          children := children, primitive := r.1, z := z.1 }
      some { r.2.2 with nodes := r.2.2.nodes.set id (some node) }
  | none => none

/-- The render pass's fold over the drained dirty list. -/
def renderFold (assets : Assets) : List Index → WidgetManager → Option WidgetManager
  | [], st => some st
  | id :: rest, st =>
      match processNode assets st id with
      | some st1 => renderFold assets rest st1
      | none => none

/-- The tree update performed by one iteration of the `build_nodes_tree`
loop for a present widget: a renderable widget gets its valid children
recorded, and — when one exists — its valid parent. -/
def bntStep (st : WidgetManager) (fuel : Nat) (widget_id : Index) (w : Widget)
    (t : Tree) : Tree :=
  match w.styles with
  | some widget_styles =>
      if resolveRC widget_styles.render_command ≠ .Empty then
        match getValidParent st fuel widget_id with
        | some valid_parent =>
            { t with
              children := (widget_id, getValidNodeChildren st fuel widget_id) :: t.children,
              parents := (widget_id, valid_parent) :: t.parents }
        | none =>
            { t with
              children := (widget_id, getValidNodeChildren st fuel widget_id) :: t.children }
      else t
  | none => t

/-- The loop of `build_nodes_tree` over the arena entries after the first:
renderable widgets get their tree entries, focus-eligible widgets are added
to the focus tree. `none` models the `unwrap` panic on a taken widget
slot. -/
def bntLoop (st : WidgetManager) (fuel : Nat) :
    List (Nat × Option Widget) → Tree → FocusTree → Option (Tree × FocusTree)
  | [], t, ft => some (t, ft)
  | (widget_id, vw) :: rest, t, ft =>
      match vw with
      | none => none
      | some w =>
          bntLoop st fuel rest (bntStep st fuel widget_id w t)
            (if (getFocusable st widget_id).getD false then ft.add widget_id else ft)

/-- `WidgetManager::build_nodes_tree`: rebuild the renderable-only tree and
the focus tree from scratch. The root is the first arena entry, index `0`
(slots are never removed); `none` models the `unwrap` panics (empty arena,
taken widget slot). The previously focused Identity is re-focused when the
rebuilt focus tree still contains it. -/
def buildNodesTree (fuel : Nat) (st : WidgetManager) : Option (Tree × FocusTree) :=
  match st.current_widgets with
  | [] => none
  | _ :: _ =>
      match bntLoop st fuel (st.current_widgets.enum.drop 1)
          { root_node := some 0, parents := [],
            children := [(0, getValidNodeChildren st fuel 0)] }
          (FocusTree.clear.add 0) with
      | some (t, ft) =>
          some (t,
            match st.focus_tree.current with
            | some f => if ft.containsId f then ft.focus f else ft
            | none => ft)
      | none => none

/-- `WidgetManager::render`: drain the render-dirty set, process each drained
identity, then rebuild the node tree and focus tree. -/
def render (assets : Assets) (st : WidgetManager) : Option WidgetManager :=
  match renderFold assets st.dirty_render_nodes { st with dirty_render_nodes := [] } with
  | some st1 =>
      match buildNodesTree st1.current_widgets.length st1 with
      | some (t, ft) => some { st1 with node_tree := t, focus_tree := ft }
      | none => none
  | none => none

/-- `WidgetManager::recurse_node_tree_to_build_primitives` with explicit
fuel: depth-first pre-order emission of stamped primitives with the clip
carry/reset bookkeeping. The child loop threads (accumulated primitives,
running z, carried clip) exactly as the Rust loop mutates them. -/
def recursePrimitives (node_tree : Tree) (layout_cache : List (Index × Rect))
    (nodes : List (Option Node)) :
    Nat → Index → Rat → RenderPrimitive → List RenderPrimitive
  | 0, _, _, _ => []
  | fuel + 1, current_node, main_z_index, prev_clip =>
      match nodes.get? current_node with
      | some (some node) =>
          match mapLookup layout_cache current_node with
          | some layout0 =>
              let new_z_index :=
                if node.primitive.isClip then main_z_index - 1/10 else main_z_index
              let layout := { layout0 with z_index := new_z_index }
              let render_primitive := node.primitive.setLayout layout
              let new_prev_clip :=
                if render_primitive.isClip then render_primitive else prev_clip
              match mapLookup node_tree.children current_node with
              | some children =>
                  (children.foldl
                    (fun (s : List RenderPrimitive × Rat × RenderPrimitive) child =>
                      let mz := s.2.1 + 1
                      let sub := recursePrimitives node_tree layout_cache nodes fuel
                        child mz new_prev_clip
                      let prims := s.1 ++ sub
                      let mz1 := layout.z_index
                      if s.2.2.isClip then
                        let pc := s.2.2.setClipZ (mz1 + 1/10)
                        (prims ++ [pc], mz1, pc)
                      else (prims, mz1, s.2.2))
                    ([render_primitive], main_z_index, new_prev_clip)).1
              | none => [render_primitive]
          | none => []
      | _ => []

/-- `WidgetManager::build_render_primitives`. -/
def buildRenderPrimitives (fuel : Nat) (st : WidgetManager) : List RenderPrimitive :=
  match st.node_tree.root_node with
  | none => []
  | some root => recursePrimitives st.node_tree st.layout_cache st.nodes fuel root 0 .Empty

/-- Region equality of two rects, ignoring the stamped z-index. -/
def sameRegion (a b : Rect) : Bool :=
  a.posx == b.posx && a.posy == b.posy && a.width == b.width && a.height == b.height

/-- The stamped z-index of a sequenced primitive (`0` for `Empty`). -/
def primZ : RenderPrimitive → Rat
  | .Empty => 0
  | .Clip l => l.z_index
  | .Quad l => l.z_index
  | .Text l _ _ _ _ _ => l.z_index

/-- The `i`-th output primitive is a quad over region `r`. -/
def isQuadAt (out : List RenderPrimitive) (i : Nat) (r : Rect) : Bool :=
  match out.get? i with
  | some (.Quad l) => sameRegion l r
  | _ => false

/-- The `i`-th output primitive is a clip over region `r`. -/
def isClipAt (out : List RenderPrimitive) (i : Nat) (r : Rect) : Bool :=
  match out.get? i with
  | some (.Clip l) => sameRegion l r
  | _ => false

/-- Stamped z-index of the `i`-th output primitive. -/
def zAt (out : List RenderPrimitive) (i : Nat) : Rat :=
  match out.get? i with
  | some p => primZ p
  | none => 0

/-- The claim's Scenario C pattern, literally: the output contains C's clip
primitive (region `cR`), then D1's primitive (region `d1R`), then D2's
(region `d2R`), then a reset copy of C's clip whose stamped z-index is
strictly greater than D2's stamped z-index, then S's primitive (region
`sR`). -/
def claimC1holds (out : List RenderPrimitive) (cR d1R d2R sR : Rect) : Bool :=
  (List.range out.length).any fun i1 =>
    (List.range out.length).any fun i2 =>
      (List.range out.length).any fun i3 =>
        (List.range out.length).any fun i4 =>
          (List.range out.length).any fun i5 =>
            decide (i1 < i2) && decide (i2 < i3) && decide (i3 < i4) &&
            decide (i4 < i5) && isClipAt out i1 cR && isQuadAt out i2 d1R &&
            isQuadAt out i3 d2R && isClipAt out i4 cR &&
            decide (zAt out i3 < zAt out i4) && isQuadAt out i5 sR

/-- The amended Scenario C pattern: as `claimC1holds`, except the reset copy
following D2's primitive has stamped z-index equal to C's stamped z-index
plus 0.1 — strictly greater than C's but strictly less than D2's. -/
def amendedC1holds (out : List RenderPrimitive) (cR d1R d2R sR : Rect) : Bool :=
  (List.range out.length).any fun i1 =>
    (List.range out.length).any fun i2 =>
      (List.range out.length).any fun i3 =>
        (List.range out.length).any fun i4 =>
          (List.range out.length).any fun i5 =>
            decide (i1 < i2) && decide (i2 < i3) && decide (i3 < i4) &&
            decide (i4 < i5) && isClipAt out i1 cR && isQuadAt out i2 d1R &&
            isQuadAt out i3 d2R && isClipAt out i4 cR &&
            decide (zAt out i4 = zAt out i1 + 1/10) &&
            decide (zAt out i1 < zAt out i4) && decide (zAt out i4 < zAt out i3) &&
            isQuadAt out i5 sR

/-- Distinct layout rects for the Scenario C identities. -/
def rectOf (i : Nat) : Rect := ⟨10 * i, 0, 50, 50, 0⟩

/-- A declared quad style. -/
def quadStyle : Style := ⟨.Value .Quad, .Default, .Default, .Default, .Default, .Default⟩

/-- A declared clip style. -/
def clipStyle : Style := ⟨.Value .Clip, .Default, .Default, .Default, .Default, .Default⟩

/-- A resolved `NodeRecord` for the Scenario C state. -/
def mkNodeC1 (i : Nat) (s : Style) (cs : List Index) (p : RenderPrimitive) : Node :=
  ⟨i, s, some s, cs, p, 0⟩

/-- Concrete Scenario C state: node `0` (N, quad) has a clip child `1` (C)
with two quad children `2` (D1) and `3` (D2), followed by N's quad child `4`
(S). -/
def exC1 : WidgetManager :=
  { nodes := [some (mkNodeC1 0 quadStyle [1, 4] (.Quad Rect.zero)),
              some (mkNodeC1 1 clipStyle [2, 3] (.Clip Rect.zero)),
              some (mkNodeC1 2 quadStyle [] (.Quad Rect.zero)),
              some (mkNodeC1 3 quadStyle [] (.Quad Rect.zero)),
              some (mkNodeC1 4 quadStyle [] (.Quad Rect.zero))],
    node_tree := { root_node := some 0, parents := [(1, 0), (4, 0), (2, 1), (3, 1)],
                   children := [(0, [1, 4]), (1, [2, 3])] },
    layout_cache := [(0, rectOf 0), (1, rectOf 1), (2, rectOf 2), (3, rectOf 3),
                     (4, rectOf 4)] }

/-- The primitive sequence the code actually produces on the Scenario C
state. -/
def exC1expected : List RenderPrimitive :=
  [.Quad { rectOf 0 with z_index := 0 },
   .Clip { rectOf 1 with z_index := 9/10 },
   .Quad { rectOf 2 with z_index := 2 },
   .Clip { rectOf 1 with z_index := 1 },
   .Quad { rectOf 3 with z_index := 19/10 },
   .Clip { rectOf 1 with z_index := 1 },
   .Quad { rectOf 4 with z_index := 1 }]

/-- Membership of `c` in `a`'s full-tree children sequence. -/
def memChild (st : WidgetManager) (a c : Index) : Bool :=
  match mapLookup st.tree.children a with
  | some cs => cs.contains c
  | none => false

/-- A chain `a` to `x1` to ... to `xk` to `d` in the full tree whose
intermediate nodes `x1 ... xk` are all present invisible wrappers (flattened
by `get_valid_node_children`). -/
def wrapperPath (st : WidgetManager) : Index → List Index → Index → Bool
  | a, [], d => memChild st a d
  | a, x :: xs, d => memChild st a x && isWrapper st x && wrapperPath st x xs d

theorem mem_collectChildren {f : Index → List Index} {a : Index} :
    ∀ {l : List Index}, a ∈ collectChildren f l ↔ ∃ c ∈ l, a ∈ f c
  | [] => by simp [collectChildren]
  | c :: rest => by
      simp only [collectChildren, List.mem_append,
        mem_collectChildren (l := rest), List.mem_cons]
      constructor
      · rintro (h | ⟨x, hx, ha⟩)
        · exact ⟨c, Or.inl rfl, h⟩
        · exact ⟨x, Or.inr hx, ha⟩
      · rintro ⟨x, hx | hx, ha⟩
        · subst hx
          exact Or.inl ha
        · exact Or.inr ⟨x, hx, ha⟩

theorem isRenderable_elim (st : WidgetManager) (d : Index)
    (h : isRenderable st d = true) :
    ∃ w s, widgetAt st d = some w ∧ w.styles = some s ∧
      (resolveRC s.render_command != RenderCommand.Empty) = true := by
  unfold isRenderable at h
  split at h
  next w hw =>
    split at h
    next s hs => exact ⟨w, s, hw, hs, h⟩
    next => exact absurd h (by simp)
  next => exact absurd h (by simp)

theorem gvnc_renderable (st : WidgetManager) :
    ∀ fuel id c, c ∈ getValidNodeChildren st fuel id → isRenderable st c = true
  | 0, id, c, h => absurd h (List.not_mem_nil c)
  | fuel + 1, id, c, h => by
      unfold getValidNodeChildren at h
      split at h
      next cs hcs =>
        rw [mem_collectChildren] at h
        obtain ⟨ch, hch, hc⟩ := h
        split at hc
        next w hw =>
          split at hc
          next s hs =>
            split at hc
            next hne =>
              rw [List.mem_singleton] at hc
              subst hc
              simp only [isRenderable, hw, hs]
              exact hne
            next => exact gvnc_renderable st fuel ch c hc
          next => exact gvnc_renderable st fuel ch c hc
        next => exact absurd hc (List.not_mem_nil c)
      next => exact absurd h (List.not_mem_nil c)

theorem splice_reach (st : WidgetManager) :
    ∀ (ws : List Index) (a d : Index) (fuel : Nat),
      wrapperPath st a ws d = true → isRenderable st d = true →
      ws.length + 1 ≤ fuel → d ∈ getValidNodeChildren st fuel a
  | [], _, _, 0, _, _, hf => absurd hf (by omega)
  | _ :: _, _, _, 0, _, _, hf => absurd hf (by omega)
  | [], a, d, fuel + 1, hwp, hrend, _ => by
      rw [show wrapperPath st a [] d = memChild st a d from rfl] at hwp
      unfold memChild at hwp
      split at hwp
      next cs hcs =>
        unfold getValidNodeChildren
        simp only [hcs]
        rw [mem_collectChildren]
        refine ⟨d, by simpa using hwp, ?_⟩
        obtain ⟨w, s, hw, hs, hne⟩ := isRenderable_elim st d hrend
        simp only [hw, hs, hne, if_pos, List.mem_singleton]
      next => exact absurd hwp (by simp)
  | x :: xs, a, d, fuel + 1, hwp, hrend, hf => by
      rw [show wrapperPath st a (x :: xs) d =
        (memChild st a x && isWrapper st x && wrapperPath st x xs d) from rfl,
        Bool.and_eq_true, Bool.and_eq_true] at hwp
      obtain ⟨⟨hmema, hwrap⟩, hrest⟩ := hwp
      unfold memChild at hmema
      split at hmema
      next cs hcs =>
        unfold getValidNodeChildren
        simp only [hcs]
        rw [mem_collectChildren]
        refine ⟨x, by simpa using hmema, ?_⟩
        rw [show isWrapper st x = ((widgetAt st x).isSome && !(isRenderable st x))
          from rfl, Bool.and_eq_true] at hwrap
        obtain ⟨hsome, hnr⟩ := hwrap
        obtain ⟨w, hw⟩ := Option.isSome_iff_exists.mp hsome
        have hnr1 : isRenderable st x = false := by
          revert hnr
          cases isRenderable st x <;> simp
        cases hsty : w.styles with
        | none =>
          simp only [hw, hsty]
          exact splice_reach st xs x d fuel hrest hrend
            (by simp only [List.length_cons] at hf; omega)
        | some s =>
          have hemp : (resolveRC s.render_command != RenderCommand.Empty) = false := by
            have h1 := hnr1
            simp only [isRenderable, hw, hsty] at h1
            exact h1
          simp only [hw, hsty, hemp, Bool.false_eq_true, if_false]
          exact splice_reach st xs x d fuel hrest hrend
            (by simp only [List.length_cons] at hf; omega)
      next => exact absurd hmema (by simp)

theorem mapLookup_cons {α : Type} (a : Index) (b : α) (l : List (Index × α))
    (k : Index) :
    mapLookup ((a, b) :: l) k = if a == k then some b else mapLookup l k := by
  unfold mapLookup
  rw [List.find?]
  by_cases h : (a == k) = true
  · simp [h]
  · simp only [Bool.not_eq_true] at h
    simp [h]

section RatEval

attribute [local semireducible] Rat.mul Rat.add Rat.sub Rat.inv

/-- C1 counterexample: on the concrete Scenario C state, the code emits
`[N(z=0), C(z=0.9), D1(z=2), reset(z=1), D2(z=1.9), reset(z=1), S(z=1)]`,
and the claimed pattern — a reset copy of C's clip after D2's primitive with
stamped z strictly greater than D2's — does not occur: the reset copy's z is
1, strictly below D2's 1.9. -/
theorem clip_reset_claim_fails :
    buildRenderPrimitives 10 exC1 = exC1expected ∧
    claimC1holds (buildRenderPrimitives 10 exC1) (rectOf 1) (rectOf 2) (rectOf 3)
      (rectOf 4) = false := by
  decide

/-- C1 (amended): the output sequence contains C's primitive, then D1's, then
D2's, then a reset copy of C's clip primitive, then S's primitive — but the
reset copy's stamped z-index is C's stamped z-index plus 0.1, strictly
greater than C's and strictly less than D2's stamped z-index (the running z
is reset to the clip node's own stamped z before the 0.1 bump). -/
theorem clip_reset_amended :
    buildRenderPrimitives 10 exC1 = exC1expected ∧
    amendedC1holds (buildRenderPrimitives 10 exC1) (rectOf 1) (rectOf 2) (rectOf 3)
      (rectOf 4) = true := by
  decide

end RatEval

theorem mem_insertIdx_self (l : List Index) (i : Index) : i ∈ insertIdx l i := by
  unfold insertIdx
  split
  · assumption
  · exact List.mem_append_right _ (List.mem_singleton.mpr rfl)

theorem setFocusable_current_widgets (st : WidgetManager) (f : Option Bool)
    (id : Index) (ip : Bool) :
    (setFocusable st f id ip).current_widgets = st.current_widgets := by
  unfold setFocusable
  split <;> rfl

theorem setFocusable_dirty (st : WidgetManager) (f : Option Bool) (id : Index)
    (ip : Bool) :
    (setFocusable st f id ip).dirty_render_nodes = st.dirty_render_nodes := by
  unfold setFocusable
  split <;> rfl

/-- C9: `take` on an occupied slot returns the stored `WidgetInstance` and
leaves the slot empty; a second `take` on the same Identity without an
intervening `repossess` — equivalently, `take` on a slot whose
`WidgetInstance` is absent — hits the `unwrap` panic (modelled as `none`)
instead of returning. -/
theorem take_exclusive (st : WidgetManager) (id : Index) :
    (∀ w, st.current_widgets.get? id = some (some w) →
       take st id =
         some (w, { st with current_widgets := st.current_widgets.set id none })) ∧
    (∀ w st1, take st id = some (w, st1) →
       st1.current_widgets.get? id = some none ∧ take st1 id = none) ∧
    (widgetAt st id = none → take st id = none) := by
  refine ⟨fun w hw => ?_, fun w st1 h => ?_, fun h => ?_⟩
  · unfold take
    rw [hw]
  · unfold take at h
    split at h
    next w0 hw0 =>
      obtain ⟨rfl, rfl⟩ := by exact Prod.mk.injEq .. ▸ Option.some.injEq .. ▸ h
      have hlen : id < st.current_widgets.length := by
        by_contra hge
        rw [List.get?_eq_none.mpr (Nat.le_of_not_lt hge)] at hw0
        exact Option.noConfusion hw0
      have hset : (st.current_widgets.set id none).get? id = some none := by
        rw [List.get?_eq_getElem?]
        simp [List.getElem?_set_self (by simpa using hlen)]
      refine ⟨hset, ?_⟩
      unfold take
      rw [hset]
    next => exact Option.noConfusion h
  · unfold take
    unfold widgetAt at h
    cases hid : st.current_widgets.get? id with
    | none => simp
    | some o =>
      cases o with
      | none => simp
      | some w => rw [hid] at h; exact Option.noConfusion h

/-- Concrete widget used by small witnesses. -/
def exWidget : Widget := ⟨0, some quadStyle, none, "w"⟩

/-- Concrete one-slot state used by the C9 witness. -/
def exTakeSt : WidgetManager := { current_widgets := [some exWidget] }

/-- C9 witness: on the concrete one-widget state, `take 0` yields the widget
and a second `take 0` fails. -/
theorem take_exclusive_witness :
    ∃ st1, take exTakeSt 0 = some (exWidget, st1) ∧ take st1 0 = none := by
  obtain ⟨h1, h2, _⟩ := take_exclusive exTakeSt 0
  have ht := h1 exWidget rfl
  exact ⟨_, ht, (h2 exWidget _ ht).2⟩

theorem freshInsert_fst (st : WidgetManager) (w : Widget) (p : Option Index) :
    (freshInsert st w p).1 = true := rfl

theorem freshInsert_dirty_mem (st : WidgetManager) (w : Widget) (p : Option Index) :
    (freshInsert st w p).2.1 ∈ (freshInsert st w p).2.2.dirty_render_nodes := by
  simp only [freshInsert, setFocusable_dirty]
  exact mem_insertIdx_self _ _

/-- C10: whenever `create_widget` returns (does not panic), the boolean
component of its result is `true` — the core never reports an update as a
no-op — and the returned Identity has been inserted into the render-dirty
set, on both the in-place-update path and the fresh-allocation path. -/
theorem create_widget_always_true (st : WidgetManager) (i : Nat) (w : Widget)
    (p : Option Index) (b : Bool) (id : Index) (st1 : WidgetManager)
    (h : createWidget st i w p = some (b, id, st1)) :
    b = true ∧ id ∈ st1.dirty_render_nodes := by
  unfold createWidget at h
  split at h
  next widget_id hid =>
    unfold updateExisting at h
    split at h
    next =>
      simp only [Option.some.injEq, Prod.mk.injEq] at h
      obtain ⟨rfl, rfl, rfl⟩ := h
      exact ⟨rfl, mem_insertIdx_self _ _⟩
    next => exact Option.noConfusion h
  next =>
    simp only [Option.some.injEq] at h
    rw [Prod.ext_iff, Prod.ext_iff] at h
    obtain ⟨h1, h2, h3⟩ := h
    subst h1; subst h2; subst h3
    exact ⟨freshInsert_fst .., freshInsert_dirty_mem ..⟩

/-- Explicit result state of creating a root widget on the empty manager. -/
def exC10out : WidgetManager :=
  { current_widgets := [some exWidget], dirty_render_nodes := [0], nodes := [none],
    tree := { root_node := some 0 }, layout_cache := [(0, Rect.zero)],
    focus_tracker := [(0, true)] }

/-- C10 witness: creating a root widget on the empty state returns `true` and
marks the new Identity render-dirty. -/
theorem create_widget_always_true_witness :
    createWidget {} 0 exWidget none = some (true, 0, exC10out) ∧
      0 ∈ exC10out.dirty_render_nodes :=
  ⟨rfl, (create_widget_always_true {} 0 exWidget none true 0 exC10out rfl).2⟩

/-- C2: when the parent's children sequence already has an entry at the given
child index, `create_widget` returns that stored Identity (the one allocated
by the earlier call that created the entry), replaces the `WidgetInstance` in
place without allocating a new arena slot, and leaves the Identity in the
render-dirty set. -/
theorem create_widget_identity_stable (st : WidgetManager) (P : Index) (i : Nat)
    (cs : List Index) (id0 : Index) (w0 w : Widget)
    (h1 : mapLookup st.tree.children P = some cs)
    (h2 : cs.get? i = some id0)
    (h3 : st.current_widgets.get? id0 = some (some w0)) :
    ∃ st1, createWidget st i w (some P) = some (true, id0, st1) ∧
      st1.current_widgets.length = st.current_widgets.length ∧
      st1.current_widgets.get? id0 = some (some { w with id := id0 }) ∧
      id0 ∈ st1.dirty_render_nodes := by
  have hlen : id0 < st.current_widgets.length := by
    by_contra hge
    rw [List.get?_eq_none.mpr (Nat.le_of_not_lt hge)] at h3
    exact Option.noConfusion h3
  have hchild : childAt st (some P) i = some id0 := by
    simp only [childAt]
    rw [h1]
    exact h2
  have hcw : (if st.tree.isEmpty then setFocusable st (some true) id0 true
      else setFocusable st w.focusable id0 true).current_widgets =
      st.current_widgets := by
    split <;> rw [setFocusable_current_widgets]
  simp only [createWidget, hchild]
  unfold updateExisting
  rw [hcw, h3]
  refine ⟨_, rfl, ?_, ?_, mem_insertIdx_self _ _⟩
  · simp [List.length_set]
  · rw [List.get?_eq_getElem?]
    simp [List.getElem?_set_self (by simpa using hlen)]

theorem textMeasure_state (fuel : Nat) (st1 : WidgetManager) (id : Index)
    (styles : Style) (assets : Assets) (lay : Rect) (ps : Rat × Rat)
    (content fontName : String) (size line_height : Rat) :
    (textMeasure fuel st1 id styles assets lay ps content fontName size
      line_height).2.2 = st1 := by
  unfold textMeasure
  repeat' split
  all_goals rfl

theorem createPrimitive_fields (fuel : Nat) (st : WidgetManager) (id : Index)
    (styles : Style) (assets : Assets) :
    ∃ lf, (createPrimitive fuel st id styles assets).2.2 =
      { st with widget_lifetimes := lf } := by
  unfold createPrimitive
  split
  next => rw [textMeasure_state]; exact ⟨_, rfl⟩
  next => exact ⟨_, rfl⟩

theorem createPrimitive_dirty (fuel : Nat) (st : WidgetManager) (id : Index)
    (styles : Style) (assets : Assets) :
    (createPrimitive fuel st id styles assets).2.2.dirty_render_nodes =
      st.dirty_render_nodes := by
  obtain ⟨lf, h⟩ := createPrimitive_fields fuel st id styles assets
  rw [h]

theorem createPrimitive_nodes (fuel : Nat) (st : WidgetManager) (id : Index)
    (styles : Style) (assets : Assets) :
    (createPrimitive fuel st id styles assets).2.2.nodes = st.nodes := by
  obtain ⟨lf, h⟩ := createPrimitive_fields fuel st id styles assets
  rw [h]

theorem createPrimitive_current_z (fuel : Nat) (st : WidgetManager) (id : Index)
    (styles : Style) (assets : Assets) :
    (createPrimitive fuel st id styles assets).2.2.current_z = st.current_z := by
  obtain ⟨lf, h⟩ := createPrimitive_fields fuel st id styles assets
  rw [h]

theorem processNode_dirty (assets : Assets) (st : WidgetManager) (id : Index)
    (st1 : WidgetManager) (h : processNode assets st id = some st1) :
    st1.dirty_render_nodes = st.dirty_render_nodes := by
  unfold processNode at h
  split at h
  next dw hdw =>
    simp only [Option.some.injEq] at h
    subst h
    rw [createPrimitive_dirty]
  next => exact Option.noConfusion h

theorem renderFold_dirty (assets : Assets) :
    ∀ (l : List Index) (st st1 : WidgetManager),
      renderFold assets l st = some st1 →
      st1.dirty_render_nodes = st.dirty_render_nodes
  | [], st, st1, h => by
      simp only [renderFold, Option.some.injEq] at h
      subst h
      rfl
  | id :: rest, st, st1, h => by
      unfold renderFold at h
      split at h
      next st2 hst2 =>
        rw [renderFold_dirty assets rest st2 st1 h, processNode_dirty assets st id st2 hst2]
      next => exact Option.noConfusion h

/-- C3: `render` removes the entire current contents of the render-dirty set
before processing; nothing in the pass itself re-inserts into the
render-dirty set (binding callbacks target the re-evaluation set), so after
`render` returns the render-dirty set holds exactly the insertions made
during the pass — none in this sequential embedding, i.e. it is empty, with
no drained Identity remaining. -/
theorem render_drain_exact (assets : Assets) (st st1 : WidgetManager)
    (h : render assets st = some st1) : st1.dirty_render_nodes = [] := by
  unfold render at h
  split at h
  next st2 hst2 =>
    split at h
    next t ft hbt =>
      simp only [Option.some.injEq] at h
      subst h
      exact renderFold_dirty assets _ _ _ hst2
    next => exact Option.noConfusion h
  next => exact Option.noConfusion h

/-- Concrete one-widget state with a dirty root, for the C3 witness. -/
def exC3St : WidgetManager :=
  { current_widgets := [some exWidget], dirty_render_nodes := [0], nodes := [none],
    tree := { root_node := some 0 } }

/-- C3 witness: rendering the concrete dirty-root state succeeds and leaves
the render-dirty set empty. -/
theorem render_drain_exact_witness :
    ∃ st1, render (fun _ => none) exC3St = some st1 ∧ st1.dirty_render_nodes = [] := by
  have h : (render (fun _ => none) exC3St).isSome = true := rfl
  obtain ⟨st1, hst⟩ := Option.isSome_iff_exists.mp h
  exact ⟨st1, hst, render_drain_exact _ _ _ hst⟩

/-- C7: for a drained Identity, the render pass's z computation assigns
parent-z + 1 when the Identity has a parent edge whose `NodeRecord` exists
(its resolved z is then ≥ 0 by the stated invariant, hence above the `-1`
sentinel); otherwise it assigns the current value of the engine's top-level
counter and increments that counter exactly once. `processNode` stores the
first component as the node's z and the second as the new counter. -/
theorem render_z_assignment (assets : Assets) (st : WidgetManager) (id : Index)
    (hz : ∀ p n, st.nodes.get? p = some (some n) → 0 ≤ n.z) :
    assignZ st id = (match parentRecord st id with
      | some n => (n.z + 1, st.current_z)
      | none => (st.current_z, st.current_z + 1)) ∧
    ∀ st1, processNode assets st id = some st1 →
      st1.current_z = (assignZ st id).2 ∧
      (id < st.nodes.length →
        ∃ n1, st1.nodes.get? id = some (some n1) ∧ n1.z = (assignZ st id).1) := by
  constructor
  · cases hp : mapLookup st.tree.parents id with
    | none => simp only [assignZ, parentRecord, hp]; norm_num
    | some p =>
      cases hn : st.nodes.get? p with
      | none => simp only [assignZ, parentRecord, hp, hn]; norm_num
      | some o =>
        cases o with
        | none => simp only [assignZ, parentRecord, hp, hn]; norm_num
        | some n =>
          have hlt : (-1 : Rat) < n.z :=
            lt_of_lt_of_le (by norm_num) (hz p n hn)
          simp only [assignZ, parentRecord, hp, hn, gt_iff_lt, if_pos hlt]
  · intro st1 h
    unfold processNode at h
    split at h
    next dw hdw =>
      simp only [Option.some.injEq] at h
      subst h
      refine ⟨by rw [createPrimitive_current_z], fun hid => ?_⟩
      exact ⟨_, by rw [createPrimitive_nodes, List.get?_eq_getElem?,
        List.getElem?_set_self (by simpa using hid)], rfl⟩
    next => exact Option.noConfusion h

/-- Concrete state for the C7 witness: widget `1` has parent `0` whose record
has z = 5. -/
def exC7St : WidgetManager :=
  { current_widgets := [some exWidget, some ⟨1, some quadStyle, none, "c"⟩],
    nodes := [some ⟨0, quadStyle, some quadStyle, [1], .Quad Rect.zero, 5⟩, none],
    tree := { root_node := some 0, parents := [(1, 0)], children := [(0, [1])] },
    current_z := 3 }

section RatEvalTwo

attribute [local semireducible] Rat.mul Rat.add Rat.sub Rat.inv

/-- C7 witness: on the concrete state, the parent record exists with z = 5,
so the assigned pair is (6, 3) — parent z + 1 with the counter untouched —
and `processNode` stores z = 6 and leaves the counter at 3. -/
theorem render_z_assignment_witness :
    assignZ exC7St 1 = (6, 3) ∧
    ∃ st1, processNode (fun _ => none) exC7St 1 = some st1 ∧
      st1.current_z = (assignZ exC7St 1).2 ∧
      ∃ n1, st1.nodes.get? 1 = some (some n1) ∧ n1.z = (assignZ exC7St 1).1 := by
  have hz : ∀ p n, exC7St.nodes.get? p = some (some n) → 0 ≤ n.z := by
    intro p n h
    rcases p with _ | _ | p
    · simp only [exC7St, List.get?, Option.some.injEq] at h
      subst h
      norm_num
    · simp [exC7St, List.get?] at h
    · simp [exC7St, List.get?] at h
  obtain ⟨h1, h2⟩ := render_z_assignment (fun _ => none) exC7St 1 hz
  have hsome : (processNode (fun _ => none) exC7St 1).isSome = true := rfl
  obtain ⟨st1, hst⟩ := Option.isSome_iff_exists.mp hsome
  obtain ⟨hcz, hnode⟩ := h2 st1 hst
  obtain ⟨n1, hn1, hn1z⟩ := hnode (by norm_num [exC7St])
  refine ⟨?_, st1, hst, hcz, n1, hn1, hn1z⟩
  rw [h1]
  norm_num [parentRecord, exC7St, mapLookup, List.find?]

end RatEvalTwo

/-- The ancestor chain of an Identity in the full tree, up to the given
fuel. -/
def ancestors (st : WidgetManager) : Nat → Index → List Index
  | 0, _ => []
  | fuel + 1, id =>
      match mapLookup st.tree.parents id with
      | some p => p :: ancestors st fuel p
      | none => []

/-- An ancestor qualifies as a valid parent: its `NodeRecord` exists and its
resolved render command is not `Empty`. -/
def qualifies (st : WidgetManager) (p : Index) : Bool :=
  match st.nodes.get? p with
  | some (some n) =>
      decide (resolveRC n.resolved_styles.render_command ≠ RenderCommand.Empty)
  | _ => false

theorem getValidParent_eq_find (st : WidgetManager) :
    ∀ fuel id, getValidParent st fuel id = (ancestors st fuel id).find? (qualifies st)
  | 0, id => rfl
  | fuel + 1, id => by
      cases hp : mapLookup st.tree.parents id with
      | none =>
        simp only [getValidParent, getValidParentAux, ancestors, hp, List.find?_nil]
      | some p =>
        cases hn : st.nodes.get? p with
        | none =>
          have hqf : qualifies st p = false := by simp only [qualifies, hn]
          simp only [getValidParent, getValidParentAux, ancestors, hp, hn]
          rw [List.find?_cons_of_neg _ (by simp [hqf])]
          exact getValidParent_eq_find st fuel p
        | some o =>
          cases o with
          | none =>
            have hqf : qualifies st p = false := by simp only [qualifies, hn]
            simp only [getValidParent, getValidParentAux, ancestors, hp, hn]
            rw [List.find?_cons_of_neg _ (by simp [hqf])]
            exact getValidParent_eq_find st fuel p
          | some n =>
            by_cases hq : resolveRC n.resolved_styles.render_command = RenderCommand.Empty
            · have hqf : qualifies st p = false := by
                simp only [qualifies, hn]
                simp [hq]
              simp only [getValidParent, getValidParentAux, ancestors, hp, hn]
              rw [if_neg (by simp [hq]), List.find?_cons_of_neg _ (by simp [hqf])]
              exact getValidParent_eq_find st fuel p
            · have hqt : qualifies st p = true := by
                simp only [qualifies, hn]
                simp [hq]
              simp only [getValidParent, getValidParentAux, ancestors, hp, hn]
              rw [if_pos hq, List.find?_cons_of_pos _ (by simp [hqt])]

theorem qualifies_sound (st : WidgetManager) (p : Index)
    (h : qualifies st p = true) :
    ∃ n, st.nodes.get? p = some (some n) ∧
      resolveRC n.resolved_styles.render_command ≠ RenderCommand.Empty := by
  unfold qualifies at h
  split at h
  next n heq => exact ⟨n, heq, of_decide_eq_true h⟩
  next => exact absurd h (by simp)

theorem getValidParent_sound (st : WidgetManager) (fuel : Nat) (id p : Index)
    (h : getValidParent st fuel id = some p) :
    ∃ n, st.nodes.get? p = some (some n) ∧
      resolveRC n.resolved_styles.render_command ≠ RenderCommand.Empty := by
  rw [getValidParent_eq_find] at h
  exact qualifies_sound st p (List.find?_some h)

/-- The property `get_valid_parent` actually guarantees of a returned
ancestor: its stored `NodeRecord` exists and its resolved (cascaded) render
command is not `Empty`. This is weaker than `isRenderable` (which reads the
declared style): a widget declaring `render_command: Inherit` under a
non-`Empty` parent is declared-`Empty` yet record-resolves non-`Empty`. -/
def recordRenderable (st : WidgetManager) (p : Index) : Prop :=
  ∃ n, st.nodes.get? p = some (some n) ∧
    resolveRC n.resolved_styles.render_command ≠ RenderCommand.Empty

theorem bntStep_inv (st : WidgetManager) (fuel : Nat) (widget_id : Index)
    (w : Widget) (t : Tree)
    (hwid : widgetAt st widget_id = some w)
    (hch : ∀ id ls, mapLookup t.children id = some ls →
      (id = 0 ∨ isRenderable st id = true) ∧ ∀ c ∈ ls, isRenderable st c = true)
    (hpar : ∀ id p, mapLookup t.parents id = some p → recordRenderable st p) :
    (∀ id ls, mapLookup (bntStep st fuel widget_id w t).children id = some ls →
      (id = 0 ∨ isRenderable st id = true) ∧ ∀ c ∈ ls, isRenderable st c = true) ∧
    (∀ id p, mapLookup (bntStep st fuel widget_id w t).parents id = some p →
      recordRenderable st p) := by
  unfold bntStep
  split
  next ws hws =>
    split
    next hne =>
      have hrend : isRenderable st widget_id = true := by
        simp only [isRenderable, hws, hwid, bne_iff_ne, ne_eq, decide_eq_true_eq]
        exact hne
      have hchild : ∀ id ls,
          mapLookup ((widget_id, getValidNodeChildren st fuel widget_id) ::
            t.children) id = some ls →
          (id = 0 ∨ isRenderable st id = true) ∧
            ∀ c ∈ ls, isRenderable st c = true := by
        intro id ls hl
        rw [mapLookup_cons] at hl
        split at hl
        next heq =>
          obtain rfl := (Option.some.injEq ..).mp hl
          refine ⟨Or.inr ?_, fun c hc => gvnc_renderable st fuel widget_id c hc⟩
          have heq1 : widget_id = id := by simpa using heq
          exact heq1 ▸ hrend
        next => exact hch id ls hl
      split
      next vp hvp =>
        refine ⟨hchild, fun id p hl => ?_⟩
        rw [mapLookup_cons] at hl
        split at hl
        next =>
          have hvpe : vp = p := (Option.some.injEq ..).mp hl
          exact hvpe ▸ getValidParent_sound st fuel widget_id vp hvp
        next => exact hpar id p hl
      next => exact ⟨hchild, hpar⟩
    next => exact ⟨hch, hpar⟩
  next => exact ⟨hch, hpar⟩

theorem bntLoop_inv (st : WidgetManager) (fuel : Nat) :
    ∀ (l : List (Nat × Option Widget)) (t : Tree) (ft : FocusTree) (t1 : Tree)
      (ft1 : FocusTree),
      bntLoop st fuel l t ft = some (t1, ft1) →
      (∀ iv ∈ l, st.current_widgets.get? iv.1 = some iv.2) →
      (∀ id ls, mapLookup t.children id = some ls →
        (id = 0 ∨ isRenderable st id = true) ∧ ∀ c ∈ ls, isRenderable st c = true) →
      (∀ id p, mapLookup t.parents id = some p → recordRenderable st p) →
      (∀ id ls, mapLookup t1.children id = some ls →
        (id = 0 ∨ isRenderable st id = true) ∧ ∀ c ∈ ls, isRenderable st c = true) ∧
      (∀ id p, mapLookup t1.parents id = some p → recordRenderable st p)
  | [], t, ft, t1, ft1, h, _, hch, hpar => by
      simp only [bntLoop, Option.some.injEq, Prod.mk.injEq] at h
      rw [← h.1]
      exact ⟨hch, hpar⟩
  | (widget_id, vw) :: rest, t, ft, t1, ft1, h, hl, hch, hpar => by
      unfold bntLoop at h
      split at h
      next => exact Option.noConfusion h
      next w =>
        have hwid : widgetAt st widget_id = some w := by
          have h0 := hl (widget_id, some w) (List.mem_cons_self _ _)
          simp only [widgetAt, h0]
          rfl
        obtain ⟨hch1, hpar1⟩ :=
          bntStep_inv st fuel widget_id w t hwid hch hpar
        exact bntLoop_inv st fuel rest _ _ t1 ft1 h
          (fun iv hiv => hl iv (List.mem_cons_of_mem _ hiv)) hch1 hpar1


/-- C5: `get_valid_parent` never returns an Identity whose resolved style is
`Empty`: any returned ancestor has an existing `NodeRecord` with a
non-`Empty` resolved render command, and the walk returns exactly the first
qualifying ancestor of the upward chain (skipping ancestors whose record is
missing or resolves to `Empty`), or `None` if none qualifies. -/
theorem get_valid_parent_never_empty (st : WidgetManager) :
    (∀ fuel id p, getValidParent st fuel id = some p →
       ∃ n, st.nodes.get? p = some (some n) ∧
         resolveRC n.resolved_styles.render_command ≠ RenderCommand.Empty) ∧
    (∀ fuel id, getValidParent st fuel id =
       (ancestors st fuel id).find? (qualifies st)) :=
  ⟨fun fuel id p h => getValidParent_sound st fuel id p h,
   fun fuel id => getValidParent_eq_find st fuel id⟩

/-- Concrete state for the C5 witness: `2`'s parent `1` has no `NodeRecord`
(skipped), grandparent `0` has a quad record. -/
def exC5St : WidgetManager :=
  { current_widgets := [some exWidget, some ⟨1, none, none, "a"⟩,
      some ⟨2, some quadStyle, none, "b"⟩],
    nodes := [some ⟨0, quadStyle, some quadStyle, [], .Quad Rect.zero, 0⟩, none, none],
    tree := { root_node := some 0, parents := [(2, 1), (1, 0)],
              children := [(0, [1]), (1, [2])] } }

/-- C5 witness: walking up from `2` skips the record-less `1` and returns
`0`, whose record resolves non-`Empty`. -/
theorem get_valid_parent_never_empty_witness :
    getValidParent exC5St 5 2 = some 0 ∧
    ∃ n, exC5St.nodes.get? 0 = some (some n) ∧
      resolveRC n.resolved_styles.render_command ≠ RenderCommand.Empty := by
  have h : getValidParent exC5St 5 2 = some 0 := rfl
  exact ⟨h, (get_valid_parent_never_empty exC5St).1 5 2 0 h⟩

/-- Declared style with `render_command: Inherit`: its declared resolve is
`Empty` (the fixed baseline), but the cascade replaces it with the parent's
value, so the stored `NodeRecord` can resolve non-`Empty`. -/
def inheritCmdStyle : Style :=
  ⟨.Inherit, .Default, .Default, .Default, .Default, .Default⟩

/-- The reviewer scenario reaching a falsifying state through the engine's
own operations: create a quad root, under it a widget declaring
`render_command: Inherit`, under that a quad leaf, then run the render
pass. -/
def exC4chain : Option WidgetManager :=
  (createWidget {} 0 ⟨0, some quadStyle, none, "root"⟩ none).bind fun r1 =>
    (createWidget r1.2.2 0 ⟨0, some inheritCmdStyle, none, "mid"⟩ (some 0)).bind
      fun r2 =>
        (createWidget r2.2.2 0 ⟨0, some quadStyle, none, "leaf"⟩ (some 1)).bind
          fun r3 => render (fun _ => none) r3.2.2

/-- The facts observed on the rendered state: who the rebuilt renderable
tree records as widget 2's parent, whether that parent's declared style is
renderable, the root of the renderable tree, and what the parent's stored
`NodeRecord` resolves to. -/
def exC4observed (st4 : WidgetManager) :
    Option Index × Bool × Option Index × Option RenderCommand :=
  (mapLookup st4.node_tree.parents 2, isRenderable st4 1,
    st4.node_tree.root_node,
    match st4.nodes.get? 1 with
    | some (some n) => some (resolveRC n.resolved_styles.render_command)
    | _ => none)

/-- C4 counterexample: after the three `create_widget` calls and one render
pass of `exC4chain`, the rebuilt renderable tree's parents map sends widget
`2` to Identity `1`, which is not the root (`0` is) and whose declared style
resolves to `Empty` (`isRenderable = false`) — its `NodeRecord` resolves to
`Quad` only because `render_command: Inherit` cascaded from the quad root.
So a non-root Identity whose declared style resolves to `Empty` does appear
as someone's parent in the renderable tree, refuting the claim as stated. -/
theorem flattening_claim_fails :
    exC4chain.map exC4observed =
      some (some 1, false, some 0, some RenderCommand.Quad) := by
  decide

/-- C4 (amended): in the tree produced by the per-frame rebuild, (1) every
entry of a valid-children list is renderable (declared style resolves
non-`Empty`), (2) every children-map key is the root or renderable — so no
non-root declared-`Empty` Identity appears as a node — while every
parents-map value has a stored `NodeRecord` whose resolved (cascaded) render
command is non-`Empty` (an Identity whose declared style resolves to `Empty`
can still appear as a parent when its record cascaded non-`Empty`, e.g. via
`render_command: Inherit`), and (3) every renderable widget reachable
through a chain of present invisible wrappers is spliced into its nearest
non-`Empty` ancestor's valid children, so non-`Empty` descendants of an
`Empty` Identity stay reachable. -/
theorem flattening_amended (st : WidgetManager) :
    (∀ fuel id c, c ∈ getValidNodeChildren st fuel id → isRenderable st c = true) ∧
    (∀ fuel t ft, buildNodesTree fuel st = some (t, ft) →
       (∀ id ls, mapLookup t.children id = some ls →
          (id = 0 ∨ isRenderable st id = true) ∧
            ∀ c ∈ ls, isRenderable st c = true) ∧
       (∀ id p, mapLookup t.parents id = some p → recordRenderable st p)) ∧
    (∀ fuel a ws d, wrapperPath st a ws d = true → isRenderable st d = true →
       ws.length + 1 ≤ fuel → d ∈ getValidNodeChildren st fuel a) := by
  refine ⟨fun fuel id c h => gvnc_renderable st fuel id c h, ?_,
    fun fuel a ws d h1 h2 h3 => splice_reach st ws a d fuel h1 h2 h3⟩
  intro fuel t ft h
  unfold buildNodesTree at h
  split at h
  next => exact Option.noConfusion h
  next =>
    split at h
    next t0 ft0 hloop =>
      simp only [Option.some.injEq, Prod.mk.injEq] at h
      obtain ⟨rfl, rfl⟩ := h
      refine bntLoop_inv st fuel _ _ _ _ _ hloop ?_ ?_ ?_
      · intro iv hiv
        have hm := List.mem_of_mem_drop hiv
        rw [List.mem_enum_iff_getElem?] at hm
        rw [List.get?_eq_getElem?]
        exact hm
      · intro id ls hl
        rw [mapLookup_cons] at hl
        split at hl
        next heq =>
          have h0 : (0 : Index) = id := by simpa using heq
          obtain rfl := (Option.some.injEq ..).mp hl
          exact ⟨Or.inl h0.symm, fun c hc => gvnc_renderable st fuel 0 c hc⟩
        next => simp [mapLookup] at hl
      · intro id p hl
        simp [mapLookup] at hl
    next => exact Option.noConfusion h

/-- Declared style resolving to the Empty visual kind (invisible wrapper). -/
def emptyStyleC4 : Style :=
  ⟨.Value .Empty, .Default, .Default, .Default, .Default, .Default⟩

/-- Concrete state for the C4 witness: renderable root `0`, Empty wrapper
`1`, renderable grandchild `2`. -/
def exC4St : WidgetManager :=
  { current_widgets := [some exWidget, some ⟨1, some emptyStyleC4, none, "w1"⟩,
      some ⟨2, some quadStyle, none, "w2"⟩],
    tree := { root_node := some 0, parents := [(1, 0), (2, 1)],
              children := [(0, [1]), (1, [2])] } }

/-- C4 witness: `2` sits behind the Empty wrapper `1`, and the flattening
splices it directly into the root's valid children. -/
theorem flattening_amended_witness :
    wrapperPath exC4St 0 [1] 2 = true ∧ isRenderable exC4St 2 = true ∧
      2 ∈ getValidNodeChildren exC4St 2 0 :=
  ⟨by decide, by decide,
    (flattening_amended exC4St).2.2 2 0 [1] 2 (by decide) (by decide) (by decide)⟩

theorem bntLoop_current (st : WidgetManager) (fuel : Nat) :
    ∀ (l : List (Nat × Option Widget)) (t : Tree) (ft : FocusTree) (t1 : Tree)
      (ft1 : FocusTree), bntLoop st fuel l t ft = some (t1, ft1) →
      ft1.current = ft.current
  | [], t, ft, t1, ft1, h => by
      simp only [bntLoop, Option.some.injEq, Prod.mk.injEq] at h
      rw [← h.2]
  | (widget_id, vw) :: rest, t, ft, t1, ft1, h => by
      unfold bntLoop at h
      split at h
      next => exact Option.noConfusion h
      next w =>
        rw [bntLoop_current st fuel rest _ _ t1 ft1 h]
        split <;> rfl

/-- C8: rebuilding the node tree preserves the previously focused Identity as
current exactly when it is contained in the rebuilt focus tree; otherwise
(including when there was no previous focus) the current focus ends up
cleared rather than erroring. -/
theorem focus_preserved (fuel : Nat) (st : WidgetManager) (t : Tree)
    (ft : FocusTree) (h : buildNodesTree fuel st = some (t, ft)) :
    ft.current = (match st.focus_tree.current with
      | some f => if ft.containsId f then some f else none
      | none => none) := by
  unfold buildNodesTree at h
  split at h
  next => exact Option.noConfusion h
  next =>
    split at h
    next t0 ft0 hloop =>
      simp only [Option.some.injEq, Prod.mk.injEq] at h
      obtain ⟨rfl, rfl⟩ := h
      have hcur : ft0.current = none := by
        rw [bntLoop_current st fuel _ _ _ _ _ hloop]
        rfl
      cases hold : st.focus_tree.current with
      | none => exact hcur
      | some f =>
        simp only [FocusTree.containsId, FocusTree.focus]
        by_cases hc : f ∈ ft0.nodes
        · simp [hc]
        · simp [hc, hcur]
    next => exact Option.noConfusion h

/-- Concrete state for the C8 witness: focusable widget `1` currently holds
focus and survives the rebuild. -/
def exC8St : WidgetManager :=
  { current_widgets := [some exWidget, some ⟨1, some quadStyle, some true, "f"⟩],
    focus_tracker := [(1, true)],
    focus_tree := { nodes := [0, 1], current := some 1 },
    tree := { root_node := some 0, parents := [(1, 0)], children := [(0, [1])] } }

/-- C8 witness: rebuilding on the concrete state keeps Identity `1`
focused. -/
theorem focus_preserved_witness :
    ∃ t ft, buildNodesTree 3 exC8St = some (t, ft) ∧ ft.current = some 1 := by
  have hc : buildNodesTree 3 exC8St =
      some ({ root_node := some 0, parents := [],
              children := [(1, []), (0, [1])] },
            { nodes := [0, 1], current := some 1 }) := rfl
  refine ⟨_, _, hc, (focus_preserved 3 exC8St _ _ hc).trans ?_⟩
  rfl

/-- C6: for a Text widget whose cascaded style leaves width or height unset,
when the referenced font asset is available and the widget's valid parent has
a known layout rect, `create_primitive` sets the still-unset dimensions of
the resolved style to the pixel measurement of the content against the
parent rect's size; when the font, the valid parent, or the parent layout is
unavailable, the style stays exactly as the cascade produced it. -/
theorem text_autosize (fuel : Nat) (st : WidgetManager) (id : Index)
    (styles : Style) (assets : Assets) (lay : Rect) (ps : Rat × Rat)
    (content fontName : String) (size line_height : Rat)
    (hT : RenderPrimitive.fromStyle styles =
      .Text lay ps content fontName size line_height) :
    (∀ font pid prect,
       assets fontName = some font →
       getValidParent st fuel id = some pid →
       getLayout st pid = some prect →
       (styles.width = StyleProp.Default →
         (createPrimitive fuel st id styles assets).2.1.width =
           .Value (.Pixels (font.measure content size line_height
             (prect.width, prect.height)).1)) ∧
       (styles.height = StyleProp.Default →
         (createPrimitive fuel st id styles assets).2.1.height =
           .Value (.Pixels (font.measure content size line_height
             (prect.width, prect.height)).2))) ∧
    (assets fontName = none →
      (createPrimitive fuel st id styles assets).2.1 = styles) ∧
    (getValidParent st fuel id = none →
      (createPrimitive fuel st id styles assets).2.1 = styles) ∧
    (∀ pid, getValidParent st fuel id = some pid → getLayout st pid = none →
      (createPrimitive fuel st id styles assets).2.1 = styles) := by
  have hgvp : getValidParent (bindFont st id fontName) fuel id =
      getValidParent st fuel id := rfl
  have hgl : ∀ q, getLayout (bindFont st id fontName) q = getLayout st q :=
    fun _ => rfl
  refine ⟨fun font pid prect hf hp hl => ?_, fun hf => ?_, fun hp => ?_,
    fun pid hp hl => ?_⟩
  · simp only [createPrimitive, hT, textMeasure, hf, hgvp, hp, hgl, hl]
    refine ⟨fun hw => ?_, fun hh => ?_⟩
    · by_cases hh : styles.height = StyleProp.Default <;> simp [hw, hh]
    · by_cases hw : styles.width = StyleProp.Default <;> simp [hw, hh]
  · simp [createPrimitive, hT, textMeasure, hf]
  · simp only [createPrimitive, hT, textMeasure, hgvp, hp]
    cases assets fontName <;> rfl
  · simp only [createPrimitive, hT, textMeasure, hgvp, hp, hgl, hl]
    cases assets fontName <;> rfl

/-- Concrete font whose measurement of any content in any box is 80 by 20
pixels. -/
def exFont : KayakFont := ⟨fun _ _ _ _ => (80, 20)⟩

/-- Concrete asset store holding exactly the font `fontA`. -/
def exAssets : Assets := fun n => if n = "fontA" then some exFont else none

/-- Declared style of the C6 text widget: content with font `fontA`, width
and height left unset. -/
def textStyleC6 : Style :=
  ⟨.Value (.Text "hello"), .Default, .Default, .Value "fontA", .Value 14, .Value 16⟩

/-- Concrete state for the C6 witness: text widget `1` under parent `0`
whose layout rect is 200 by 100. -/
def exC6St : WidgetManager :=
  { current_widgets := [some exWidget, some ⟨1, some textStyleC6, none, "t"⟩],
    nodes := [some ⟨0, quadStyle, some quadStyle, [1], .Quad Rect.zero, 0⟩, none],
    tree := { root_node := some 0, parents := [(1, 0)], children := [(0, [1])] },
    layout_cache := [(0, ⟨0, 0, 200, 100, 0⟩)] }

/-- C6 witness: with parent rect 200 by 100 and content measuring 80 by 20,
the resolved style's width becomes 80 pixels and its height 20 pixels. -/
theorem text_autosize_witness :
    (createPrimitive 3 exC6St 1 textStyleC6 exAssets).2.1.width =
      .Value (.Pixels 80) ∧
    (createPrimitive 3 exC6St 1 textStyleC6 exAssets).2.1.height =
      .Value (.Pixels 20) := by
  obtain ⟨h1, _, _, _⟩ :=
    text_autosize 3 exC6St 1 textStyleC6 exAssets Rect.zero (0, 0) "hello" "fontA"
      14 16 rfl
  obtain ⟨hw, hh⟩ := h1 exFont 0 ⟨0, 0, 200, 100, 0⟩ rfl rfl rfl
  exact ⟨hw rfl, hh rfl⟩

/-- Concrete two-widget state (root `0` with child `1`) for the C2 witness. -/
def exC2St : WidgetManager :=
  { current_widgets := [some exWidget, some ⟨1, some quadStyle, none, "old"⟩],
    tree := { root_node := some 0, parents := [(1, 0)], children := [(0, [1])] } }

/-- C2 witness: re-creating at `(parent 0, index 0)` returns the stored
Identity `1`, keeps the arena size, stores the new instance, and marks `1`
render-dirty. -/
theorem create_widget_identity_stable_witness :
    ∃ st1, createWidget exC2St 0 ⟨0, some quadStyle, none, "new"⟩ (some 0) =
        some (true, 1, st1) ∧
      st1.current_widgets.length = exC2St.current_widgets.length ∧
      st1.current_widgets.get? 1 = some (some ⟨1, some quadStyle, none, "new"⟩) ∧
      1 ∈ st1.dirty_render_nodes := by
  exact create_widget_identity_stable exC2St 0 0 [1] 1 ⟨1, some quadStyle, none, "old"⟩
    ⟨0, some quadStyle, none, "new"⟩ rfl rfl rfl

end Kayak
